import Mathlib

/-!
Verification of the claude-adapter protocol translator.

Shallow embedding of the streaming re-framer
(`claude_adapter/converters/streaming.py`), the request translator
(`claude_adapter/converters/request.py`), the finish-reason mappers
(`claude_adapter/converters/response.py`, `claude_adapter/handlers/messages.py`),
the model resolver (`claude_adapter/handlers/messages.py`) and the provider
preset catalog (`claude_adapter/providers.py`).

Conventions of the embedding:
- JSON object payloads that the code treats opaquely (tool input schemas,
  serialized tool arguments) are represented by their serialized text, so
  `json.dumps` of such a payload is the identity on the stored string.
- Python truthiness of optional strings and lists is modelled explicitly
  (`none` or empty means falsy).
- `random.choices` is modelled by threading a character supply
  `rng : Nat -> Char` together with a position counter.
- Machine integers are `Nat`; `int(w * 0.9)` is modelled as `w * 9 / 10`,
  which coincides with the Python float computation on the two context
  windows that occur in the preset catalog (8192 -> 7372, 131072 -> 117964).
-/

namespace ClaudeAdapter

/-! ## Streaming re-framer: upstream chunk model

A `Chunk` is one successfully JSON-parsed `data:` payload of the upstream
SSE stream, in stream order, before the `[DONE]` terminator.  Lines that are
blank, comments, or unparseable JSON are skipped by the code
(`continue`) and therefore do not appear in the list. -/

/-- Usage as extracted by the re-framer: `prompt_tokens`/`completion_tokens`
with default 0 (streaming.py, `_process_chunk`). -/
structure SUsage where
  input_tokens : Nat
  output_tokens : Nat
deriving DecidableEq

/-- The top-level `error` value of a chunk: either a JSON object (with its
optional string-valued `message` and `type` keys) or some non-object value. -/
inductive ErrField where
  | obj (message : Option String) (typ : Option String)
  | scalar
deriving DecidableEq

/-- One entry of `choices[0].delta.tool_calls`: `index`, optional `id`, and
the optional `function.name` / `function.arguments`. -/
structure TCDelta where
  index : Nat
  id : Option String
  fname : Option String
  fargs : Option String
deriving DecidableEq

/-- `choices[0].delta`. -/
structure CDelta where
  content : Option String
  tool_calls : List TCDelta
deriving DecidableEq

/-- One entry of `choices`. -/
structure CChoice where
  delta : CDelta
  finish_reason : Option String
deriving DecidableEq

/-- A parsed upstream stream chunk (the fields the re-framer reads). -/
structure Chunk where
  error : Option ErrField
  usage : Option SUsage
  choices : List CChoice
deriving DecidableEq

/-! ## Streaming re-framer: state (class `StreamState`) -/

/-- An entry of `state.content_blocks`: a text block with its accumulated
text, or a tool_use block with the recorded id and name (its `input` field
stays the empty object and is never read). -/
inductive CBlock where
  | text (t : String)
  | tool_use (id : String) (name : String)
deriving DecidableEq

/-- An entry of `state.tool_calls` (keyed by the upstream delta index):
recorded id, name, and accumulated `function.arguments` characters. -/
structure TCState where
  id : String
  name : String
  inp : String
deriving DecidableEq

/-- `StreamState`: open content blocks, tool-call accumulator keyed by the
upstream tool-call index (a Python dict, modelled as an insertion-ordered
association list), and the last observed usage. -/
structure StreamState where
  content_blocks : List CBlock
  tool_calls : List (Nat × TCState)
  usage : Option SUsage
deriving DecidableEq

/-- The `delta` payload of a `content_block_delta` event. -/
inductive ADelta where
  | text_delta (t : String)
  | ijson_delta (pjson : String)
deriving DecidableEq

/-- An emitted Anthropic SSE event (the fields relevant to ordering and the
error path; `message_start` carries the request id and echoed model,
`message_delta` carries the stop_reason and usage). -/
inductive AEvent where
  | message_start (id : String) (model : String)
  | block_start (index : Nat) (cb : CBlock)
  | block_delta (index : Nat) (d : ADelta)
  | block_stop (index : Nat)
  | message_delta (sreason : String) (u : SUsage)
  | message_stop
deriving DecidableEq

/-- Dict lookup `state.tool_calls[i]`. -/
def lookupTC : List (Nat × TCState) → Nat → Option TCState
  | [], _ => none
  | (j, v) :: rest, i => if j = i then some v else lookupTC rest i

/-- Dict update `state.tool_calls[i] = f(state.tool_calls[i])` (key present). -/
def updateTC (i : Nat) (f : TCState → TCState) : List (Nat × TCState) → List (Nat × TCState)
  | [] => []
  | (j, v) :: rest => if j = i then (j, f v) :: rest else (j, v) :: updateTC i f rest

/-- `not state.content_blocks or state.content_blocks[-1]["type"] != "text"`. -/
def needNewTextBlock (bs : List CBlock) : Bool :=
  match bs.getLast? with
  | some (CBlock.text _) => false
  | _ => true

/-- `state.content_blocks[-1]["text"] += t` (the last block is a text block
whenever this is called). -/
def appendLastText (t : String) : List CBlock → List CBlock
  | [] => []
  | [CBlock.text s] => [CBlock.text (s ++ t)]
  | [b] => [b]
  | b :: rest => b :: appendLastText t rest

/-- Text-content handling of `_process_chunk` (guarded by Python truthiness
of `delta["content"]`): open a new text block if the last open block is not
a text block, then append the delta text and emit a `text_delta`. -/
def processText (s : StreamState) (t : String) : StreamState × List AEvent :=
  if t = "" then (s, [])
  else
    let s1 : StreamState :=
      if needNewTextBlock s.content_blocks then
        { s with content_blocks := s.content_blocks ++ [CBlock.text ""] }
      else s
    let evs1 : List AEvent :=
      if needNewTextBlock s.content_blocks then
        [AEvent.block_start s.content_blocks.length (CBlock.text "")]
      else []
    let idx := s1.content_blocks.length - 1
    ({ s1 with content_blocks := appendLastText t s1.content_blocks },
     evs1 ++ [AEvent.block_delta idx (ADelta.text_delta t)])

/-- `next((i for i, b in enumerate(state.content_blocks) if b["type"] ==
"tool_use" and b["id"] == tc_id), len(state.content_blocks) - 1)`:
the first matching index, without the fallback applied. -/
def findToolBlockIdx (bs : List CBlock) (tid : String) : Option Nat :=
  match bs with
  | [] => none
  | b :: rest =>
    if (match b with | CBlock.tool_use i _ => i == tid | _ => false) then some 0
    else (findToolBlockIdx rest tid).map (fun i => i + 1)

/-- The `function.arguments` part of one tool-call delta: accumulate the
characters and emit an `input_json_delta` at the block index found by
matching the recorded id of the tool call (fallback: last block index). -/
def processArgs (s : StreamState) (tc : TCDelta) (acc : List AEvent) : StreamState × List AEvent :=
  match tc.fargs with
  | none => (s, acc)
  | some args =>
    match lookupTC s.tool_calls tc.index with
    | none => (s, acc)
    | some v =>
      let s1 := { s with tool_calls := updateTC tc.index (fun w => { w with inp := w.inp ++ args }) s.tool_calls }
      let bIdx := (findToolBlockIdx s1.content_blocks v.id).getD (s1.content_blocks.length - 1)
      (s1, acc ++ [AEvent.block_delta bIdx (ADelta.ijson_delta args)])

/-- One tool-call delta: register a new tool call (appending a `tool_use`
block and emitting its `content_block_start`) when the index is new, then
handle the arguments part. -/
def processTC (s : StreamState) (tc : TCDelta) : StreamState × List AEvent :=
  match lookupTC s.tool_calls tc.index with
  | none =>
    let tcId := tc.id.getD ""
    let nm := tc.fname.getD ""
    let bIdx := s.content_blocks.length
    let s1 : StreamState :=
      { s with
        tool_calls := s.tool_calls ++ [(tc.index, ⟨tcId, nm, ""⟩)],
        content_blocks := s.content_blocks ++ [CBlock.tool_use tcId nm] }
    processArgs s1 tc [AEvent.block_start bIdx (CBlock.tool_use tcId nm)]
  | some _ => processArgs s tc []

/-- The `for tc_delta in delta["tool_calls"]` loop. -/
def processTCs (s : StreamState) : List TCDelta → StreamState × List AEvent
  | [] => (s, [])
  | tc :: rest =>
    let p := processTC s tc
    let q := processTCs p.1 rest
    (q.1, p.2 ++ q.2)

/-- `if choice.get("finish_reason"):` emit `content_block_stop` for every
open block, in index order. -/
def finishStops (s : StreamState) (fr : Option String) : List AEvent :=
  match fr with
  | some r => if r = "" then [] else (List.range s.content_blocks.length).map (fun i => AEvent.block_stop i)
  | none => []

/-- `_process_chunk`: update usage; if there are no choices return; handle
the text delta, the tool-call deltas, then the finish_reason of
`choices[0]`. -/
def processChunk (s : StreamState) (c : Chunk) : StreamState × List AEvent :=
  let s0 : StreamState :=
    match c.usage with
    | some u => { s with usage := some u }
    | none => s
  match c.choices with
  | [] => (s0, [])
  | ch :: _ =>
    let p1 :=
      match ch.delta.content with
      | some t => processText s0 t
      | none => (s0, [])
    let p2 := processTCs p1.1 ch.delta.tool_calls
    (p2.1, p1.2 ++ p2.2 ++ finishStops p2.1 ch.finish_reason)

/-- `isinstance(error, dict) and ("message" in error or "type" in error)`. -/
def isApiError (c : Chunk) : Bool :=
  match c.error with
  | some (ErrField.obj m t) => m.isSome || t.isSome
  | some ErrField.scalar => false
  | none => false

/-- `error.get("message", "Unknown error")`. -/
def errMsgOf (c : Chunk) : String :=
  match c.error with
  | some (ErrField.obj m _) => m.getD "Unknown error"
  | _ => "Unknown error"

/-- The four events yielded on the API-error path of
`convert_stream_to_anthropic` (the code also appends the error text block
to `state.content_blocks`, but the state is discarded on `return`). -/
def apiErrorTail (s : StreamState) (c : Chunk) : List AEvent :=
  let idx := s.content_blocks.length
  [AEvent.block_start idx (CBlock.text ("Error: " ++ errMsgOf c)),
   AEvent.block_stop idx,
   AEvent.message_delta "error" (s.usage.getD ⟨0, 0⟩),
   AEvent.message_stop]

/-- End-of-stream events: `message_delta(end_turn)` when usage was observed,
then the final `message_stop`. -/
def endEvents (s : StreamState) : List AEvent :=
  (match s.usage with
   | some u => [AEvent.message_delta "end_turn" u]
   | none => []) ++ [AEvent.message_stop]

/-- The chunk loop of `convert_stream_to_anthropic`: an API-error chunk
terminates the stream with `apiErrorTail`; any other chunk is processed by
`_process_chunk`; after the last chunk the end events are emitted. -/
def runChunks (s : StreamState) : List Chunk → List AEvent
  | [] => endEvents s
  | c :: rest =>
    if isApiError c then apiErrorTail s c
    else
      let p := processChunk s c
      p.2 ++ runChunks p.1 rest

/-- `StreamState(request_id, model)`. -/
def initState : StreamState := ⟨[], [], none⟩

/-- `convert_stream_to_anthropic`: `message_start`, then the chunk loop. -/
def convertStream (chunks : List Chunk) (request_id model : String) : List AEvent :=
  AEvent.message_start request_id model :: runChunks initState chunks

/-! ## Event-grammar checker

A deterministic scanner for the per-block reading of the spec grammar
`message_start (content_block_start content_block_delta* content_block_stop)*
message_delta? message_stop` as glossed by the key properties in the spec:
exactly one start and one stop per opened block, deltas only between them,
block indices assigned in open order `0, 1, 2, ...`, at most one
`message_delta` after all blocks are closed, and a single terminal
`message_stop`. -/

structure GState where
  opened : Nat
  stopped : List Bool
  sawMsgDelta : Bool
  finished : Bool
deriving DecidableEq

def allStopped (l : List Bool) : Bool := l.all (fun b => b)

/-- The stopped-flag of block `i`. -/
def nthT : List Bool → Nat → Option Bool
  | [], _ => none
  | b :: _, 0 => some b
  | _ :: rest, n + 1 => nthT rest n

/-- Mark block `i` stopped. -/
def setT : List Bool → Nat → List Bool
  | [], _ => []
  | _ :: rest, 0 => true :: rest
  | b :: rest, n + 1 => b :: setT rest n

/-- One step of the grammar scanner; `none` means the event is not allowed
in the current state. -/
def stepG (g : GState) : AEvent → Option GState
  | AEvent.message_start _ _ => none
  | AEvent.block_start i _ =>
    if g.finished || g.sawMsgDelta then none
    else if i = g.opened then
      some { g with opened := g.opened + 1, stopped := g.stopped ++ [false] }
    else none
  | AEvent.block_delta i _ =>
    if g.finished || g.sawMsgDelta then none
    else match nthT g.stopped i with
      | some false => some g
      | _ => none
  | AEvent.block_stop i =>
    if g.finished || g.sawMsgDelta then none
    else match nthT g.stopped i with
      | some false => some { g with stopped := setT g.stopped i }
      | _ => none
  | AEvent.message_delta _ _ =>
    if g.finished || g.sawMsgDelta || !(allStopped g.stopped) then none
    else some { g with sawMsgDelta := true }
  | AEvent.message_stop =>
    if g.finished || !(allStopped g.stopped) then none
    else some { g with finished := true }

def scanG (g : GState) : List AEvent → Option GState
  | [] => some g
  | e :: rest =>
    match stepG g e with
    | some g1 => scanG g1 rest
    | none => none

/-- The event sequence is grammatical: it opens with `message_start`, every
subsequent event is allowed by the scanner, and the sequence ends exactly at
a `message_stop` with every opened block stopped. -/
def eventsWellFormed (evs : List AEvent) : Bool :=
  match evs with
  | AEvent.message_start _ _ :: rest =>
    (match scanG ⟨0, [], false, false⟩ rest with
     | some g => g.finished
     | none => false)
  | _ => false

/-- Number of `content_block_stop` events carrying the given index. -/
def countStops (evs : List AEvent) (i : Nat) : Nat :=
  evs.countP (fun e => match e with
    | AEvent.block_stop j => j == i
    | _ => false)

/-- Number of `content_block_start` events carrying the given index. -/
def countStarts (evs : List AEvent) (i : Nat) : Nat :=
  evs.countP (fun e => match e with
    | AEvent.block_start j _ => j == i
    | _ => false)

/-- A chunk whose first choice carries a truthy `finish_reason`. -/
def hasFinish (c : Chunk) : Bool :=
  match c.choices with
  | [] => false
  | ch :: _ =>
    match ch.finish_reason with
    | some r => !(r == "")
    | none => false

/-- Fold of `_process_chunk` over a chunk list (no error chunk among them). -/
def procMany (s : StreamState) : List Chunk → StreamState × List AEvent
  | [] => (s, [])
  | c :: rest =>
    let p := processChunk s c
    let q := procMany p.1 rest
    (q.1, p.2 ++ q.2)

/-- The scanner state reached after opening `n` blocks, none stopped, no
`message_delta` and no `message_stop` seen. -/
def gOf (n : Nat) : GState := ⟨n, List.replicate n false, false, false⟩

/-- Stream-state invariant: every registered tool call has had its block
appended, so the registered count never exceeds the block count. -/
def StInv (s : StreamState) : Prop :=
  s.tool_calls.length ≤ s.content_blocks.length

/-! ## Provider presets (`providers.py`) and configuration (`models/config.py`) -/

/-- The `ProviderName` literal type. -/
inductive ProviderTag where
  | nvidia | ollama | lmstudio | kimi | deepseek | glm | minimax | custom
deriving DecidableEq

/-- `PROVIDER_PRESETS[name].max_context_window`: only the ollama and
lmstudio presets declare one. -/
def presetWindow : ProviderTag → Option Nat
  | ProviderTag.ollama => some 8192
  | ProviderTag.lmstudio => some 131072
  | _ => none

/-- `ModelConfig`: the three configured model tiers. -/
structure ModelConfig where
  opus : String
  sonnet : String
  haiku : String
deriving DecidableEq

/-! ## Request domain (`models/anthropic.py`) -/

/-- One entry of a `ToolResultBlock.content` list (a JSON object with its
optional `type` and `text` keys). -/
structure TRPart where
  ptype : Option String
  ptext : Option String
deriving DecidableEq

/-- `ToolResultBlock.content`: a string or a list of parts. -/
inductive TRContent where
  | str (s : String)
  | parts (l : List TRPart)
deriving DecidableEq

/-- An Anthropic content block.  `tool_use.input` is the JSON-serialized
argument object (see the embedding conventions above). -/
inductive ABlock where
  | text (t : String)
  | tool_use (id : String) (name : String) (input : String)
  | tool_result (tool_use_id : String) (content : TRContent) (is_error : Option Bool)
deriving DecidableEq

/-- `Message.content`: a string or a block sequence. -/
inductive AContent where
  | str (s : String)
  | blocks (bs : List ABlock)
deriving DecidableEq

inductive ARole where
  | user | assistant
deriving DecidableEq

structure AMessage where
  role : ARole
  content : AContent
deriving DecidableEq

/-- `system`: a string or a sequence of text blocks (their `text` fields). -/
inductive SystemContent where
  | str (s : String)
  | blocks (ts : List String)
deriving DecidableEq

/-- `ToolDefinition`; `input_schema` is the serialized JSON Schema. -/
structure AToolDef where
  name : String
  description : String
  input_schema : String
deriving DecidableEq

/-- `tool_choice`: the literal strings or the `{type, name}` object. -/
inductive AToolChoice where
  | autoStr
  | anyStr
  | obj (typ : String) (name : Option String)
deriving DecidableEq

/-- `AnthropicMessageRequest` (the fields read by the converter). -/
structure ARequest where
  model : String
  messages : List AMessage
  max_tokens : Nat
  system : Option SystemContent
  temperature : Option Rat
  top_p : Option Rat
  stop_sequences : Option (List String)
  stream : Option Bool
  tools : Option (List AToolDef)
  tool_choice : Option AToolChoice
deriving DecidableEq

/-! ## Upstream request shape (`models/openai.py`) -/

/-- A `tool_calls` entry: `{id, type: function, function: {name, arguments}}`.
`arguments` is the JSON serialization of the tool_use input. -/
structure OToolCall where
  id : String
  name : String
  arguments : String
deriving DecidableEq

/-- User message content: a plain string or a list of text parts. -/
inductive OUserContent where
  | str (s : String)
  | parts (ts : List String)
deriving DecidableEq

/-- An upstream chat message.  For assistant messages `content = none` and
`tool_calls = []` model the Python `None` values produced by
`content=text_content or None` and `tool_calls=... if tool_calls else None`. -/
inductive OMessage where
  | system (content : String)
  | user (content : OUserContent)
  | assistant (content : Option String) (tool_calls : List OToolCall)
  | tool (tool_call_id : String) (content : String)
deriving DecidableEq

/-- A converted tool definition `{type: function, function: {name,
description, parameters}}`. -/
structure OTool where
  name : String
  description : String
  parameters : String
deriving DecidableEq

/-- The converted `tool_choice`. -/
inductive OToolChoice where
  | auto
  | required
  | function (name : String)
deriving DecidableEq

/-- The emitted upstream request dict (the keys built by
`convert_request_to_openai`; `stream_options` is `{include_usage: true}`
when present). -/
structure ORequest where
  model : String
  messages : List OMessage
  max_tokens : Nat
  stream : Bool
  stream_options : Option Bool
  temperature : Option Rat
  top_p : Option Rat
  stop : Option (List String)
  tools : Option (List OTool)
  tool_choice : Option OToolChoice
deriving DecidableEq

inductive ToolFormat where
  | native | xml
deriving DecidableEq

/-! ## Request converter (`converters/request.py`) -/

/-- Python `pat in s` substring test. -/
def infixOfB (pat : List Char) : List Char → Bool
  | [] => pat.isEmpty
  | c :: rest => pat.isPrefixOf (c :: rest) || infixOfB pat rest

def strContains (s pat : String) : Bool := infixOfB pat.toList s.toList

/-- Python `s.strip()`: drop whitespace from both ends. -/
def pyStrip (s : String) : String :=
  String.mk (((s.toList.dropWhile Char.isWhitespace).reverse.dropWhile
    Char.isWhitespace).reverse)

/-- Python `s.startswith(pat)`. -/
def startsWithB (s pat : String) : Bool := pat.toList.isPrefixOf s.toList

/-- `_is_assistant_prefill`. -/
def isAssistantPrefill (content : String) : Bool :=
  let prefill_tokens : List String :=
    ["\x7b", "[", "```", "\x7b\"", "[\x7b", "<", "<tool_code", "<tool_code>"]
  let trimmed := pyStrip content
  if prefill_tokens.contains trimmed || trimmed.length ≤ 2 then true
  else if startsWithB trimmed "<tool_code" && !(strContains trimmed "</tool_code>") then true
  else false

/-- `CLAUDE_CODE_IDENTIFIER`. -/
def claudeCodeIdentifier : String :=
  "You are Claude Code, Anthropic\x27s official CLI for Claude."

/-- `CURRENT_VERSION` (utils/metadata.py). -/
def currentVersion : String := "1.0.0"

/-- The result of `get_cached_update_info()` (an external collaborator:
the cached version-check state). -/
structure UpdateInfo where
  current : String
  latest : String
  has_update : Bool
deriving DecidableEq

/-- `_modify_system_prompt_for_adapter`, parametrized by the cached update
info. -/
def modifySystemPrompt (system_content : String) (ui : Option UpdateInfo) : String :=
  if !(strContains system_content claudeCodeIdentifier) then system_content
  else
    let replacement :=
      "You are Claude Code, running on Claude Adapter Python V" ++ currentVersion ++
      " (https://github.com/your-repo/claude-adapter-py). " ++
      "When introducing yourself or greeting, mention Claude Adapter."
    let replacement :=
      match ui with
      | some u =>
        if u.has_update then
          replacement ++
          " IMPORTANT: A new version is available (" ++ u.current ++ " → " ++ u.latest ++ "). " ++
          "Request permission to run \x27pip install --upgrade claude-adapter-py\x27 to update."
        else replacement
      | none => replacement
    system_content.replace claudeCodeIdentifier replacement

/-- `_IdDeduplicationContext`: the seen-id set (modelled as a list queried
by membership), the original-id → replacement-ids mapping, and the
result-consumption index. -/
structure DedupCtx where
  seen : List String
  mappings : List (String × List String)
  resultIdx : List (String × Nat)
deriving DecidableEq

def emptyCtx : DedupCtx := ⟨[], [], []⟩

/-- Dict update-or-insert for `result_index`. -/
def setAssoc : List (String × Nat) → String → Nat → List (String × Nat)
  | [], k, v => [(k, v)]
  | (k', v') :: rest, k, v =>
    if k' = k then (k, v) :: rest else (k', v') :: setAssoc rest k v

/-- `ctx.id_mappings.setdefault(tool_id, []).append(new_id)`. -/
def appendMapping : List (String × List String) → String → String → List (String × List String)
  | [], k, v => [(k, [v])]
  | (k', l) :: rest, k, v =>
    if k' = k then (k, l ++ [v]) :: rest else (k', l) :: appendMapping rest k v

/-- `"".join(random.choices(chars, k=k))` starting at supply position `pos`. -/
def genChars (rng : Nat → Char) (pos k : Nat) : String :=
  String.mk ((List.range k).map (fun i => rng (pos + i)))

/-- `_deduplicate_tool_id`.  Returns the id to use, the updated context,
and the advanced supply position. -/
def dedupToolId (tid : String) (ctx : DedupCtx) (rng : Nat → Char) (pos : Nat) :
    String × DedupCtx × Nat :=
  if ctx.seen.contains tid then
    let n := tid.length
    let newId :=
      if n > 11 then (tid.take 8) ++ genChars rng pos (n - 8)
      else genChars rng pos n
    let consumed := if n > 11 then n - 8 else n
    (newId,
     { ctx with
        seen := ctx.seen ++ [newId],
        mappings := appendMapping ctx.mappings tid newId },
     pos + consumed)
  else
    (tid, { ctx with seen := ctx.seen ++ [tid] }, pos)

/-- Content extraction for a `ToolResultBlock`: a string verbatim, or the
newline-join of the `text` fields of parts whose `type` is `"text"`. -/
def extractTRContent : TRContent → String
  | TRContent.str s => s
  | TRContent.parts l =>
    String.intercalate "\n"
      ((l.filter (fun p => p.ptype == some "text")).map (fun p => p.ptext.getD ""))

/-- `_process_user_content_blocks`: the user text parts, the tool messages
as `(tool_call_id, content)` pairs, and the updated dedup context. -/
def processUserBlocks (blocks : List ABlock) (ctx : DedupCtx) :
    List String × List (String × String) × DedupCtx :=
  match blocks with
  | [] => ([], [], ctx)
  | ABlock.text t :: rest =>
    let Q := processUserBlocks rest ctx
    (t :: Q.1, Q.2.1, Q.2.2)
  | ABlock.tool_use _ _ _ :: rest => processUserBlocks rest ctx
  | ABlock.tool_result tid cont ie :: rest =>
    let content0 := extractTRContent cont
    let P : String × DedupCtx :=
      match List.lookup tid ctx.mappings with
      | some maps =>
        let idx := (List.lookup tid ctx.resultIdx).getD 0
        if idx < maps.length then
          (maps.getD idx "", { ctx with resultIdx := setAssoc ctx.resultIdx tid (idx + 1) })
        else (tid, ctx)
      | none => (tid, ctx)
    let content := if ie = some true then "Error: " ++ content0 else content0
    let Q := processUserBlocks rest P.2
    (Q.1, (P.1, content) :: Q.2.1, Q.2.2)

/-- `_process_assistant_content_blocks`: the concatenated text, the tool
calls, the updated dedup context and supply position. -/
def processAssistantBlocks (blocks : List ABlock) (ctx : DedupCtx)
    (rng : Nat → Char) (pos : Nat) : String × List OToolCall × DedupCtx × Nat :=
  match blocks with
  | [] => ("", [], ctx, pos)
  | ABlock.text t :: rest =>
    let Q := processAssistantBlocks rest ctx rng pos
    (t ++ Q.1, Q.2.1, Q.2.2)
  | ABlock.tool_use tid nm inp :: rest =>
    let D := dedupToolId tid ctx rng pos
    let Q := processAssistantBlocks rest D.2.1 rng D.2.2
    (Q.1, ⟨D.1, nm, inp⟩ :: Q.2.1, Q.2.2)
  | ABlock.tool_result _ _ _ :: rest => processAssistantBlocks rest ctx rng pos

/-- The `<tool_output>` serialization of tool results in XML mode. -/
def xmlResults (trs : List (String × String)) : String :=
  String.intercalate "\n\n"
    (trs.map (fun tr => "<tool_output>\n" ++ tr.2 ++ "\n</tool_output>"))

/-- The `<tool_code>` serialization of tool calls in XML mode. -/
def xmlToolCalls (tcs : List OToolCall) : String :=
  String.intercalate "\n\n"
    (tcs.map (fun tc =>
      "<tool_code name=\"" ++ tc.name ++ "\">\n" ++ tc.arguments ++ "\n</tool_code>"))

/-- `_convert_message`: the produced upstream messages, the updated dedup
context and supply position. -/
def convertMessage (msg : AMessage) (ctx : DedupCtx) (fmt : ToolFormat)
    (rng : Nat → Char) (pos : Nat) : List OMessage × DedupCtx × Nat :=
  match msg.content with
  | AContent.str s =>
    match msg.role with
    | ARole.user => ([OMessage.user (OUserContent.str s)], ctx, pos)
    | ARole.assistant =>
      (if isAssistantPrefill s then [] else [OMessage.assistant (some s) []], ctx, pos)
  | AContent.blocks bs =>
    match msg.role with
    | ARole.user =>
      let P := processUserBlocks bs ctx
      let uparts := P.1
      let toolMsgs := P.2.1
      match fmt with
      | ToolFormat.xml =>
        let flat0 := String.join uparts
        let flat :=
          if toolMsgs.isEmpty then flat0
          else (if flat0 = "" then flat0 else flat0 ++ "\n\n") ++ xmlResults toolMsgs
        ((if flat = "" then [] else [OMessage.user (OUserContent.str flat)]), P.2.2, pos)
      | ToolFormat.native =>
        let toolMsgList := toolMsgs.map (fun p => OMessage.tool p.1 p.2)
        let userMsgs : List OMessage :=
          match uparts with
          | [] => []
          | [t] => [OMessage.user (OUserContent.str t)]
          | _ => [OMessage.user (OUserContent.parts uparts)]
        (toolMsgList ++ userMsgs, P.2.2, pos)
    | ARole.assistant =>
      let P := processAssistantBlocks bs ctx rng pos
      let txt := P.1
      let tcs := P.2.1
      if tcs.isEmpty && !(txt = "") && isAssistantPrefill txt then
        ([], P.2.2.1, P.2.2.2)
      else
        match fmt with
        | ToolFormat.xml =>
          let full0 := txt
          let full :=
            if tcs.isEmpty then full0
            else (if full0 = "" then full0 else full0 ++ "\n\n") ++ xmlToolCalls tcs
          ([OMessage.assistant (some full) []], P.2.2.1, P.2.2.2)
        | ToolFormat.native =>
          ([OMessage.assistant (if txt = "" then none else some txt) tcs],
           P.2.2.1, P.2.2.2)

/-- The per-message conversion loop of `convert_request_to_openai`. -/
def convertMessages (msgs : List AMessage) (fmt : ToolFormat)
    (rng : Nat → Char) (ctx : DedupCtx) (pos : Nat) : List OMessage :=
  match msgs with
  | [] => []
  | m :: rest =>
    let P := convertMessage m ctx fmt rng pos
    P.1 ++ convertMessages rest fmt rng P.2.1 P.2.2

/-- `html.escape` (with quoting) used by `_escape_xml`. -/
def escapeXml (s : String) : String :=
  ((((s.replace "&" "&amp;").replace "<" "&lt;").replace ">" "&gt;").replace
      "\"" "&quot;").replace "\x27" "&#x27;"

/-- The per-tool entry of the XML instruction block.  `schema_json` is the
serialized schema (see the embedding conventions). -/
def xmlToolDef (t : AToolDef) : String :=
  "- **" ++ t.name ++ "**: " ++ escapeXml t.description ++
  "\n  Parameters: " ++ t.input_schema

/-- `generate_xml_tool_instructions` (converters/xml_prompt.py). -/
def generateXmlToolInstructions (tools : List AToolDef) : String :=
  if tools.isEmpty then ""
  else
    let tools_list := String.intercalate "\n\n" (tools.map xmlToolDef)
    "\n# TOOL CALLING FORMAT\n\n" ++
    "You are required to use tools to fetch information or perform actions.\n" ++
    "To invoke a tool, you MUST use the following EXACT XML format.\n" ++
    "ANY deviation from this format will cause the tool call to fail.\n\n" ++
    "<tool_code name=\"TOOL_NAME\">\n" ++
    "\x7b\"argument_name\": \"value\"\x7d\n" ++
    "</tool_code>\n\n" ++
    "## CRITICAL EXECUTION RULES:\n" ++
    "1. **NO Markdown**: Do NOT wrap the XML in ```xml or ``` code blocks. Output the raw XML tags directly.\n" ++
    "2. **Valid JSON**: The content between the tags MUST be valid, parseable JSON.\n" ++
    "   - Use double quotes for keys and string values.\n" ++
    "   - No trailing commas.\n" ++
    "   - No comments using // or /*.\n" ++
    "3. **Exact Name Match**: The `name` attribute MUST match a tool name from the \"Available Tools\" list exactly (case-sensitive).\n" ++
    "4. **No Nested Content**: The JSON parameters must be the direct child of `tool_code`. Do not nest another `tool` or `function` tag inside.\n" ++
    "5. **Thinking**: If you need to think or explain your reasoning, do so in text BEFORE the `<tool_code>` block. Do NOT put thoughts inside the tool code.\n" ++
    "6. **Multiple Tools**: You may call multiple tools in sequence by outputting multiple `<tool_code>` blocks.\n" ++
    "7. **Tool Outputs**: Tool results will be provided to you in the following format:\n" ++
    "<tool_output>\n" ++
    "\x7bresult_json_or_text\x7d\n" ++
    "</tool_output>\n\n" ++
    "## EXAMPLE (Correct):\n" ++
    "Thinking: I need to read the file.\n" ++
    "<tool_code name=\"Read\">\n" ++
    "\x7b\"file_path\": \"src/utils.py\"\x7d\n" ++
    "</tool_code>\n\n" ++
    "## EXAMPLES (Incorrect - DO NOT USE):\n" ++
    "Wrapped in code blocks:\n" ++
    "```xml\n" ++
    "<tool_code name=\"Read\">...</tool_code>\n" ++
    "```\n\n" ++
    "Nested tags:\n" ++
    "<tool_code><tool name=\"Read\">...</tool></tool_code>\n\n" ++
    "Invalid JSON (keys not quoted):\n" ++
    "<tool_code name=\"Read\">\n" ++
    "\x7bfile_path: \"src/utils.py\"\x7d\n" ++
    "</tool_code>\n\n" ++
    "## Available Tools:\n\n" ++
    tools_list ++ "\n"

/-- `convert_tools_to_openai` (converters/tools.py). -/
def convertTools (tools : List AToolDef) : List OTool :=
  tools.map (fun t => ⟨t.name, t.description, t.input_schema⟩)

/-- `convert_tool_choice_to_openai` (converters/tools.py). -/
def convertToolChoice : AToolChoice → OToolChoice
  | AToolChoice.autoStr => OToolChoice.auto
  | AToolChoice.anyStr => OToolChoice.required
  | AToolChoice.obj typ nm =>
    if typ = "tool" then
      match nm with
      | some n => OToolChoice.function n
      | none => OToolChoice.auto
    else if typ = "auto" then OToolChoice.auto
    else if typ = "any" then OToolChoice.required
    else OToolChoice.auto

/-- Python truthiness of the `system` field. -/
def systemTruthy : SystemContent → Bool
  | SystemContent.str s => !(s = "")
  | SystemContent.blocks l => !l.isEmpty

/-- The system text: a string verbatim, or the newline-join of the text
blocks. -/
def systemText : SystemContent → String
  | SystemContent.str s => s
  | SystemContent.blocks l => String.intercalate "\n" l

/-- The `max_tokens` pipeline of `convert_request_to_openai`: the `1 → 32`
rewrite, then the provider-preset context-window cap
`max_allowed = int(preset.max_context_window * 0.9)`. -/
def effectiveMaxTokens (cfg : Option ProviderTag) (mt : Nat) : Nat :=
  let m := if mt = 1 then 32 else mt
  match cfg with
  | none => m
  | some p =>
    match presetWindow p with
    | none => m
    | some w =>
      if w ≠ 0 then
        if m ≠ 0 then (if m > w * 9 / 10 then w * 9 / 10 else m) else m
      else m

/-- `convert_request_to_openai`, parametrized by the cached update info and
the random character supply. -/
def convertRequest (req : ARequest) (target : String) (fmt : ToolFormat)
    (cfg : Option ProviderTag) (ui : Option UpdateInfo) (rng : Nat → Char) : ORequest :=
  let sysMsgs : List OMessage :=
    match req.system with
    | none => []
    | some sc =>
      if systemTruthy sc then [OMessage.system (modifySystemPrompt (systemText sc) ui)]
      else []
  let toolsL := req.tools.getD []
  let msgs1 : List OMessage :=
    if fmt = ToolFormat.xml && !toolsL.isEmpty then
      match sysMsgs with
      | OMessage.system s :: rest =>
        OMessage.system (s ++ "\n\n" ++ generateXmlToolInstructions toolsL) :: rest
      | _ => OMessage.system (generateXmlToolInstructions toolsL) :: sysMsgs
    else sysMsgs
  let converted := convertMessages req.messages fmt rng emptyCtx 0
  let streamB := req.stream.getD false
  { model := target,
    messages := msgs1 ++ converted,
    max_tokens := effectiveMaxTokens cfg req.max_tokens,
    stream := streamB,
    stream_options := if streamB then some true else none,
    temperature := if fmt = ToolFormat.xml then some 0 else req.temperature,
    top_p := req.top_p,
    stop :=
      match req.stop_sequences with
      | some l => if l.isEmpty then none else some l
      | none => none,
    tools :=
      if fmt = ToolFormat.native then
        match req.tools with
        | some ts => if ts.isEmpty then none else some (convertTools ts)
        | none => none
      else none,
    tool_choice :=
      if fmt = ToolFormat.native then req.tool_choice.map convertToolChoice
      else none }

/-! ## Finish-reason mapping (`converters/response.py` and
`handlers/messages.py` each define a `_map_finish_reason`) -/

/-- `_map_finish_reason` as defined in converters/response.py: falsy input
(absent or empty) maps to `None`, then the dict lookup with default
`"end_turn"`. -/
def mapFinishReasonResponse (fr : Option String) : Option String :=
  match fr with
  | none => none
  | some s =>
    if s = "" then none
    else some
      (if s = "stop" then "end_turn"
       else if s = "length" then "max_tokens"
       else if s = "tool_calls" then "tool_use"
       else if s = "content_filter" then "end_turn"
       else "end_turn")

/-- `_map_finish_reason` as defined in handlers/messages.py (a second copy
of the same logic). -/
def mapFinishReasonHandler (fr : Option String) : Option String :=
  match fr with
  | none => none
  | some s =>
    if s = "" then none
    else some
      (if s = "stop" then "end_turn"
       else if s = "length" then "max_tokens"
       else if s = "tool_calls" then "tool_use"
       else if s = "content_filter" then "end_turn"
       else "end_turn")

/-! ## Model resolution (`handle_messages_request`) -/

/-- The keys of the `model_mapping` dict in `handle_messages_request`. -/
def modelMappingKeys : List String :=
  ["claude-opus-4-20250514", "claude-opus-4",
   "claude-3-5-sonnet-20241022", "claude-3-5-sonnet",
   "claude-sonnet-4-20250514", "claude-sonnet-4",
   "claude-3-5-haiku-20241022", "claude-3-5-haiku",
   "claude-haiku-4-20250514", "claude-haiku-4"]

/-- `model_mapping.get(requested_model, requested_model)`: an exact-name
dict lookup with passthrough default. -/
def resolveModel (models : ModelConfig) (requested : String) : String :=
  if requested = "claude-opus-4-20250514" then models.opus
  else if requested = "claude-opus-4" then models.opus
  else if requested = "claude-3-5-sonnet-20241022" then models.sonnet
  else if requested = "claude-3-5-sonnet" then models.sonnet
  else if requested = "claude-sonnet-4-20250514" then models.sonnet
  else if requested = "claude-sonnet-4" then models.sonnet
  else if requested = "claude-3-5-haiku-20241022" then models.haiku
  else if requested = "claude-3-5-haiku" then models.haiku
  else if requested = "claude-haiku-4-20250514" then models.haiku
  else if requested = "claude-haiku-4" then models.haiku
  else requested

/-! ## Spec-modelled token estimation

The context-fitting section of the spec describes a token-estimation heuristic
and a message-dropping loop.  No such code exists anywhere in the source
(`convert_request_to_openai` only caps `max_tokens` against the provider
window of the provider preset); these definitions follow the words of the spec and exist only
so the context-fitting claim can be stated and tested against the code. -/

/-- Modelled from the spec: `max(1, ceil(len(text) * 2 / 5))`
characters-to-tokens for strings (the ceiling written in `Nat` arithmetic). -/
def specEstimateString (s : String) : Nat := max 1 ((s.length * 2 + 4) / 5)

/-- Modelled from the spec: structured content parts charge 2 tokens of
overhead each. -/
def specEstimateUserContent : OUserContent → Nat
  | OUserContent.str s => specEstimateString s
  | OUserContent.parts ts => (ts.map (fun t => 2 + specEstimateString t)).sum

/-- Modelled from the spec: the per-message prompt-token estimate. -/
def specEstimateMessage : OMessage → Nat
  | OMessage.system s => specEstimateString s
  | OMessage.user c => specEstimateUserContent c
  | OMessage.assistant c tcs =>
    (match c with | some s => specEstimateString s | none => 0) +
      (tcs.map (fun tc => specEstimateString tc.arguments)).sum
  | OMessage.tool _ c => specEstimateString c

/-- Modelled from the spec: `estimated_prompt_tokens` of an emitted message
list. -/
def specEstimatePrompt (msgs : List OMessage) : Nat :=
  (msgs.map specEstimateMessage).sum

/-! ## Concrete inputs used by counterexamples and witnesses -/

/-- A chunk carrying one text delta `"Hi"`. -/
def chunkHi : Chunk := ⟨none, none, [⟨⟨some "Hi", []⟩, none⟩]⟩

/-- A chunk carrying an API-shaped error object. -/
def chunkErr : Chunk := ⟨some (ErrField.obj (some "boom") none), none, []⟩

/-- A final chunk carrying usage and `finish_reason: "stop"`. -/
def chunkFin : Chunk := ⟨none, some ⟨3, 5⟩, [⟨⟨none, []⟩, some "stop"⟩]⟩

/-- A chunk whose `error` field is present but not API-shaped junk data. -/
def chunkJunk : Chunk := ⟨some ErrField.scalar, none, [⟨⟨some "ok", []⟩, none⟩]⟩

/-- A constant random-character supply. -/
def rngX : Nat → Char := fun _ => 'x'

/-- A constant random-character supply producing `z`. -/
def rngZ : Nat → Char := fun _ => 'z'

/-- A long user prompt: 100 text blocks of ten characters each. -/
def manyTexts : List ABlock := List.replicate 100 (ABlock.text "0123456789")

/-- The context-fitting scenario request: one long user message,
`max_tokens = 8000`. -/
def reqC2 : ARequest :=
  ⟨"claude-3-5-sonnet", [⟨ARole.user, AContent.blocks manyTexts⟩], 8000,
   none, none, none, none, none, none, none⟩

/-- The emitted request for the context-fitting scenario under the ollama
preset (`max_context_window = 8192`). -/
def outC2 : ORequest :=
  convertRequest reqC2 "target-model" ToolFormat.native (some ProviderTag.ollama) none rngX

/-- The S4 duplicate-tool-id scenario: an assistant turn with two
`ToolUseBlock`s sharing id `"dup"`, then a user turn with two
`ToolResultBlock(tool_use_id="dup")` entries. -/
def reqC3 : ARequest :=
  ⟨"m",
   [⟨ARole.assistant, AContent.blocks
      [ABlock.tool_use "dup" "f" "a1", ABlock.tool_use "dup" "g" "a2"]⟩,
    ⟨ARole.user, AContent.blocks
      [ABlock.tool_result "dup" (TRContent.str "r1") none,
       ABlock.tool_result "dup" (TRContent.str "r2") none]⟩],
   100, none, none, none, none, none, none, none⟩

/-- The translated S4 scenario, parametrized by the random supply. -/
def outC3 (rng : Nat → Char) : ORequest :=
  convertRequest reqC3 "t" ToolFormat.native none none rng

/-- The `tool_call_id`s of the emitted `tool` messages, in order. -/
def toolIds (msgs : List OMessage) : List String :=
  msgs.filterMap (fun m => match m with
    | OMessage.tool i _ => some i
    | _ => none)

/-- The ids of the emitted assistant `tool_calls`, in order. -/
def asToolCallIds (msgs : List OMessage) : List String :=
  (msgs.map (fun m => match m with
    | OMessage.assistant _ tcs => tcs.map (fun tc => tc.id)
    | _ => [])).flatten

/-- A model tier configuration with distinct concrete names. -/
def mcC5 : ModelConfig := ⟨"model-o", "model-s", "model-h"⟩

/-- A minimal valid request with `max_tokens = 1`. -/
def reqC7 : ARequest :=
  ⟨"claude-3-5-sonnet", [⟨ARole.user, AContent.str "hello"⟩], 1,
   none, none, none, none, none, none, none⟩

/-! ## Helper lemmas for the streaming grammar proof -/

theorem scanG_append (g : GState) (l1 l2 : List AEvent) :
    scanG g (l1 ++ l2) = (scanG g l1).bind (fun g1 => scanG g1 l2) := by
  induction l1 generalizing g with
  | nil => simp [scanG]
  | cons e l1 ih =>
    simp only [List.cons_append, scanG]
    cases stepG g e with
    | none => simp
    | some g1 => simp [ih]

theorem appendLastText_length (t : String) (bs : List CBlock) :
    (appendLastText t bs).length = bs.length := by
  induction bs with
  | nil => rfl
  | cons b rest ih =>
    cases rest with
    | nil => cases b <;> rfl
    | cons c cs =>
      have h : appendLastText t (b :: c :: cs) = b :: appendLastText t (c :: cs) := by
        cases b <;> rfl
      rw [h, List.length_cons, List.length_cons, ih]

theorem updateTC_length (i : Nat) (f : TCState → TCState) (l : List (Nat × TCState)) :
    (updateTC i f l).length = l.length := by
  induction l with
  | nil => rfl
  | cons p rest ih =>
    obtain ⟨j, v⟩ := p
    simp only [updateTC]
    split <;> simp [ih]

theorem lookupTC_ne_nil (l : List (Nat × TCState)) (i : Nat) (v : TCState)
    (h : lookupTC l i = some v) : l ≠ [] := by
  cases l with
  | nil => simp [lookupTC] at h
  | cons p rest => simp

theorem nthT_replicate_false (n i : Nat) (h : i < n) :
    nthT (List.replicate n false) i = some false := by
  induction n generalizing i with
  | zero => omega
  | succ n ih =>
    cases i with
    | zero => rfl
    | succ i =>
      have hi : i < n := by omega
      exact ih i hi

theorem nthT_true_prefix (j k : Nat) :
    nthT (List.replicate j true ++ List.replicate (k + 1) false) j = some false := by
  induction j with
  | zero => rfl
  | succ j ih => exact ih

theorem setT_true_prefix (j k : Nat) :
    setT (List.replicate j true ++ List.replicate (k + 1) false) j =
      List.replicate (j + 1) true ++ List.replicate k false := by
  induction j with
  | zero => simp [List.replicate, setT]
  | succ j ih =>
    have h1 : List.replicate (j + 1) true ++ List.replicate (k + 1) false =
        true :: (List.replicate j true ++ List.replicate (k + 1) false) := by
      simp [List.replicate]
    have h2 : List.replicate (j + 1 + 1) true ++ List.replicate k false =
        true :: (List.replicate (j + 1) true ++ List.replicate k false) := by
      simp [List.replicate]
    rw [h1, h2]
    simp [setT, ih]

theorem allStopped_replicate_true (n : Nat) :
    allStopped (List.replicate n true) = true := by
  induction n with
  | zero => rfl
  | succ n ih => simp [List.replicate, allStopped] at ih ⊢

theorem findToolBlockIdx_lt (bs : List CBlock) (tid : String) (i : Nat)
    (h : findToolBlockIdx bs tid = some i) : i < bs.length := by
  induction bs generalizing i with
  | nil => simp [findToolBlockIdx] at h
  | cons b rest ih =>
    simp only [findToolBlockIdx] at h
    split at h
    · cases h
      simp
    · rcases Option.map_eq_some'.mp h with ⟨j, hj, hij⟩
      have hj' := ih j hj
      simp only [List.length_cons]
      omega

theorem needNewTextBlock_false_ne_nil (bs : List CBlock)
    (h : needNewTextBlock bs = false) : bs ≠ [] := by
  intro he
  subst he
  simp [needNewTextBlock] at h

theorem processText_scan (s : StreamState) (t : String) (hs : StInv s) :
    scanG (gOf s.content_blocks.length) (processText s t).2
      = some (gOf (processText s t).1.content_blocks.length) ∧
    StInv (processText s t).1 := by
  by_cases ht : t = ""
  · have e : processText s t = (s, []) := by simp [processText, ht]
    rw [e]
    exact ⟨rfl, hs⟩
  · by_cases hn : needNewTextBlock s.content_blocks
    · have e : processText s t =
          ({ s with content_blocks := appendLastText t (s.content_blocks ++ [CBlock.text ""]) },
           [AEvent.block_start s.content_blocks.length (CBlock.text ""),
            AEvent.block_delta s.content_blocks.length (ADelta.text_delta t)]) := by
        simp [processText, ht, hn]
      rw [e]
      constructor
      · have hlen : (appendLastText t (s.content_blocks ++ [CBlock.text ""])).length
            = s.content_blocks.length + 1 := by
          rw [appendLastText_length, List.length_append]
          rfl
        have hd : nthT (List.replicate (s.content_blocks.length + 1) false)
            s.content_blocks.length = some false :=
          nthT_replicate_false _ _ (Nat.lt_succ_self _)
        simp [scanG, stepG, gOf, hlen, ← List.replicate_succ' , hd]
      · show s.tool_calls.length ≤ _
        rw [appendLastText_length, List.length_append]
        exact Nat.le_trans hs (Nat.le_add_right _ _)
    · have hne : s.content_blocks ≠ [] :=
        needNewTextBlock_false_ne_nil _ (by simpa using hn)
      have hpos : 0 < s.content_blocks.length := List.length_pos.mpr hne
      have e : processText s t =
          ({ s with content_blocks := appendLastText t s.content_blocks },
           [AEvent.block_delta (s.content_blocks.length - 1) (ADelta.text_delta t)]) := by
        simp [processText, ht, hn]
      rw [e]
      constructor
      · have hd : nthT (List.replicate s.content_blocks.length false)
            (s.content_blocks.length - 1) = some false :=
          nthT_replicate_false _ _ (by omega)
        simp [scanG, stepG, gOf, appendLastText_length, hd]
      · show s.tool_calls.length ≤ _
        rw [appendLastText_length]
        exact hs

theorem processArgs_acc (s : StreamState) (tc : TCDelta) (acc : List AEvent) :
    processArgs s tc acc = ((processArgs s tc []).1, acc ++ (processArgs s tc []).2) := by
  unfold processArgs
  cases tc.fargs with
  | none => simp
  | some args =>
    cases lookupTC s.tool_calls tc.index with
    | none => simp
    | some v => simp

theorem lookupTC_len_pos (l : List (Nat × TCState)) (i : Nat) (v : TCState)
    (h : lookupTC l i = some v) : 0 < l.length := by
  cases l with
  | nil => simp [lookupTC] at h
  | cons p rest => simp

theorem processArgs_scan (s : StreamState) (tc : TCDelta) (hs : StInv s) :
    scanG (gOf s.content_blocks.length) (processArgs s tc []).2
      = some (gOf (processArgs s tc []).1.content_blocks.length) ∧
    StInv (processArgs s tc []).1 := by
  unfold processArgs
  cases tc.fargs with
  | none => exact ⟨rfl, hs⟩
  | some args =>
    cases hl : lookupTC s.tool_calls tc.index with
    | none => exact ⟨rfl, hs⟩
    | some v =>
      have hpos : 0 < s.content_blocks.length :=
        Nat.lt_of_lt_of_le (lookupTC_len_pos _ _ _ hl) hs
      have hb : (findToolBlockIdx s.content_blocks v.id).getD
          (s.content_blocks.length - 1) < s.content_blocks.length := by
        cases hf : findToolBlockIdx s.content_blocks v.id with
        | none =>
          simp only [Option.getD]
          omega
        | some i => simpa using findToolBlockIdx_lt _ _ _ hf
      have hd : nthT (List.replicate s.content_blocks.length false)
          ((findToolBlockIdx s.content_blocks v.id).getD
            (s.content_blocks.length - 1)) = some false :=
        nthT_replicate_false _ _ hb
      constructor
      · simp [scanG, stepG, gOf, hd]
      · show (updateTC tc.index _ s.tool_calls).length ≤ _
        rw [updateTC_length]
        exact hs

theorem processTC_scan (s : StreamState) (tc : TCDelta) (hs : StInv s) :
    scanG (gOf s.content_blocks.length) (processTC s tc).2
      = some (gOf (processTC s tc).1.content_blocks.length) ∧
    StInv (processTC s tc).1 := by
  unfold processTC
  cases hl : lookupTC s.tool_calls tc.index with
  | some v => exact processArgs_scan s tc hs
  | none =>
    set s1 : StreamState :=
      { s with
        tool_calls := s.tool_calls ++ [(tc.index, ⟨tc.id.getD "", tc.fname.getD "", ""⟩)],
        content_blocks := s.content_blocks ++
          [CBlock.tool_use (tc.id.getD "") (tc.fname.getD "")] } with hs1
    have hlen1 : s1.content_blocks.length = s.content_blocks.length + 1 := by
      rw [hs1]
      simp
    have hinv1 : StInv s1 := by
      have hs' : s.tool_calls.length ≤ s.content_blocks.length := hs
      show (s.tool_calls ++ _).length ≤ (s.content_blocks ++ _).length
      simp only [List.length_append, List.length_cons, List.length_nil]
      omega
    have hargs := processArgs_scan s1 tc hinv1
    rw [processArgs_acc]
    constructor
    · rw [scanG_append]
      have hstep : scanG (gOf s.content_blocks.length)
          [AEvent.block_start s.content_blocks.length
            (CBlock.tool_use (tc.id.getD "") (tc.fname.getD ""))]
          = some (gOf s1.content_blocks.length) := by
        simp [scanG, stepG, gOf, hlen1, ← List.replicate_succ']
      rw [hstep]
      simpa using hargs.1
    · exact hargs.2

theorem processTCs_scan (tcs : List TCDelta) (s : StreamState) (hs : StInv s) :
    scanG (gOf s.content_blocks.length) (processTCs s tcs).2
      = some (gOf (processTCs s tcs).1.content_blocks.length) ∧
    StInv (processTCs s tcs).1 := by
  induction tcs generalizing s with
  | nil => exact ⟨rfl, hs⟩
  | cons tc rest ih =>
    have hTC := processTC_scan s tc hs
    have hR := ih (processTC s tc).1 hTC.2
    constructor
    · show scanG _ ((processTC s tc).2 ++ (processTCs (processTC s tc).1 rest).2) = _
      rw [scanG_append, hTC.1]
      simpa using hR.1
    · exact hR.2

theorem chunkCore_scan (s0 : StreamState) (ch : CChoice) (hs : StInv s0) :
    scanG (gOf s0.content_blocks.length)
        ((match ch.delta.content with
          | some t => processText s0 t
          | none => (s0, [])).2 ++
         (processTCs (match ch.delta.content with
          | some t => processText s0 t
          | none => (s0, [])).1 ch.delta.tool_calls).2)
      = some (gOf (processTCs (match ch.delta.content with
          | some t => processText s0 t
          | none => (s0, [])).1 ch.delta.tool_calls).1.content_blocks.length) ∧
    StInv (processTCs (match ch.delta.content with
          | some t => processText s0 t
          | none => (s0, [])).1 ch.delta.tool_calls).1 := by
  cases hc : ch.delta.content with
  | none =>
    have h := processTCs_scan ch.delta.tool_calls s0 hs
    exact ⟨by simpa using h.1, h.2⟩
  | some t =>
    have h1 := processText_scan s0 t hs
    have h2 := processTCs_scan ch.delta.tool_calls (processText s0 t).1 h1.2
    constructor
    · rw [scanG_append, h1.1]
      simpa using h2.1
    · exact h2.2

theorem processChunk_scan (c : Chunk) (s : StreamState) (hs : StInv s)
    (hf : hasFinish c = false) :
    scanG (gOf s.content_blocks.length) (processChunk s c).2
      = some (gOf (processChunk s c).1.content_blocks.length) ∧
    StInv (processChunk s c).1 := by
  obtain ⟨cerr, cusage, cchoices⟩ := c
  cases cchoices with
  | nil => cases cusage <;> exact ⟨rfl, hs⟩
  | cons ch tail =>
    have hfin : ∀ s2 : StreamState, finishStops s2 ch.finish_reason = [] := by
      intro s2
      simp only [hasFinish] at hf
      cases hfr : ch.finish_reason with
      | none => rfl
      | some r =>
        rw [hfr] at hf
        simp at hf
        simp [finishStops, hf]
    cases cusage with
    | none =>
      have hC := chunkCore_scan s ch hs
      constructor
      · show scanG _ (_ ++ _ ++ finishStops _ ch.finish_reason) = _
        rw [hfin, List.append_nil]
        exact hC.1
      · exact hC.2
    | some u =>
      have hC := chunkCore_scan { s with usage := some u } ch hs
      constructor
      · show scanG _ (_ ++ _ ++ finishStops _ ch.finish_reason) = _
        rw [hfin, List.append_nil]
        exact hC.1
      · exact hC.2

theorem stops_scan (k j n : Nat) :
    scanG ⟨n, List.replicate j true ++ List.replicate k false, false, false⟩
        ((List.range' j k).map (fun i => AEvent.block_stop i))
      = some ⟨n, List.replicate (j + k) true, false, false⟩ := by
  induction k generalizing j with
  | zero => simp [scanG]
  | succ k ih =>
    have hr : List.range' j (k + 1) = j :: List.range' (j + 1) k := rfl
    rw [hr, List.map_cons]
    have hd := nthT_true_prefix j k
    have hset := setT_true_prefix j k
    have hstep : stepG ⟨n, List.replicate j true ++ List.replicate (k + 1) false,
        false, false⟩ (AEvent.block_stop j)
        = some ⟨n, List.replicate (j + 1) true ++ List.replicate k false,
            false, false⟩ := by
      simp [stepG, hd, hset]
    show scanG _ (AEvent.block_stop j :: _) = _
    simp only [scanG, hstep]
    have he : j + 1 + k = j + (k + 1) := by omega
    have := ih (j + 1)
    rw [he] at this
    exact this

theorem finishTail_scan (s2 : StreamState) (r : String) (hrne : ¬ r = "") :
    scanG (gOf s2.content_blocks.length) (finishStops s2 (some r))
      = some ⟨s2.content_blocks.length,
          List.replicate s2.content_blocks.length true, false, false⟩ := by
  simp only [finishStops]
  rw [if_neg hrne, List.range_eq_range']
  simpa [gOf] using stops_scan s2.content_blocks.length 0 s2.content_blocks.length

theorem processChunk_scan_finish (c : Chunk) (s : StreamState) (hs : StInv s)
    (hf : hasFinish c = true) :
    scanG (gOf s.content_blocks.length) (processChunk s c).2
      = some ⟨(processChunk s c).1.content_blocks.length,
              List.replicate (processChunk s c).1.content_blocks.length true,
              false, false⟩ := by
  obtain ⟨cerr, cusage, cchoices⟩ := c
  cases cchoices with
  | nil => simp [hasFinish] at hf
  | cons ch tail =>
    have hfr : ∃ r, ch.finish_reason = some r ∧ ¬ r = "" := by
      simp only [hasFinish] at hf
      cases hr : ch.finish_reason with
      | none => rw [hr] at hf; simp at hf
      | some r =>
        rw [hr] at hf
        simp at hf
        exact ⟨r, rfl, hf⟩
    obtain ⟨r, hr, hrne⟩ := hfr
    cases cusage with
    | none =>
      have hC := chunkCore_scan s ch hs
      show scanG _ (_ ++ _ ++ finishStops _ ch.finish_reason) = _
      rw [hr, scanG_append, hC.1]
      show scanG (gOf _) (finishStops _ (some r)) = _
      exact finishTail_scan _ r hrne
    | some u =>
      have hC := chunkCore_scan { s with usage := some u } ch hs
      show scanG _ (_ ++ _ ++ finishStops _ ch.finish_reason) = _
      rw [hr, scanG_append, hC.1]
      show scanG (gOf _) (finishStops _ (some r)) = _
      exact finishTail_scan _ r hrne

theorem endEvents_scan (s2 : StreamState) (n : Nat) :
    ∃ g1, scanG ⟨n, List.replicate n true, false, false⟩ (endEvents s2) = some g1 ∧
      g1.finished = true := by
  unfold endEvents
  cases s2.usage with
  | none =>
    refine ⟨⟨n, List.replicate n true, false, true⟩, ?_, rfl⟩
    simp [scanG, stepG, allStopped_replicate_true]
  | some u =>
    refine ⟨⟨n, List.replicate n true, true, true⟩, ?_, rfl⟩
    simp [scanG, stepG, allStopped_replicate_true]

theorem runChunks_cons_noerr (s : StreamState) (c : Chunk) (rest : List Chunk)
    (h : isApiError c = false) :
    runChunks s (c :: rest)
      = (processChunk s c).2 ++ runChunks (processChunk s c).1 rest := by
  simp [runChunks, h]

theorem runChunks_append_noerr (pre : List Chunk) (rest : List Chunk) (s : StreamState)
    (h : ∀ c ∈ pre, isApiError c = false) :
    runChunks s (pre ++ rest)
      = (procMany s pre).2 ++ runChunks (procMany s pre).1 rest := by
  induction pre generalizing s with
  | nil => simp [procMany]
  | cons c pre ih =>
    have hc : isApiError c = false := h c (List.mem_cons_self c pre)
    have hrest : ∀ x ∈ pre, isApiError x = false :=
      fun x hx => h x (List.mem_cons_of_mem c hx)
    rw [List.cons_append, runChunks_cons_noerr s c _ hc, ih (processChunk s c).1 hrest]
    show _ = (procMany s (c :: pre)).2 ++ runChunks (procMany s (c :: pre)).1 rest
    simp [procMany, List.append_assoc]

theorem runChunks_scan_main (body : List Chunk) (lastc : Chunk) (s : StreamState)
    (hs : StInv s)
    (hbody : ∀ c ∈ body, isApiError c = false ∧ hasFinish c = false)
    (h1 : isApiError lastc = false) (h2 : hasFinish lastc = true) :
    ∃ g1, scanG (gOf s.content_blocks.length) (runChunks s (body ++ [lastc]))
        = some g1 ∧ g1.finished = true := by
  induction body generalizing s with
  | nil =>
    rw [List.nil_append, runChunks_cons_noerr s lastc [] h1, scanG_append,
      processChunk_scan_finish lastc s hs h2]
    obtain ⟨g1, hg, hfin⟩ :=
      endEvents_scan (processChunk s lastc).1
        (processChunk s lastc).1.content_blocks.length
    refine ⟨g1, ?_, hfin⟩
    show scanG ⟨_, _, false, false⟩ (runChunks (processChunk s lastc).1 []) = some g1
    exact hg
  | cons c body ih =>
    obtain ⟨hc1, hc2⟩ := hbody c (List.mem_cons_self c body)
    have hP := processChunk_scan c s hs hc2
    rw [List.cons_append, runChunks_cons_noerr s c _ hc1, scanG_append, hP.1]
    obtain ⟨g1, hg, hfin⟩ :=
      ih (processChunk s c).1 hP.2 (fun x hx => hbody x (List.mem_cons_of_mem c hx))
    refine ⟨g1, ?_, hfin⟩
    show scanG (gOf _) (runChunks (processChunk s c).1 (body ++ [lastc])) = some g1
    exact hg

/-! ## Claim C1: the streaming event grammar -/

/-- Claim C1 counterexample: on the mid-stream-error path the re-framer
does not emit `content_block_stop` for blocks that are still open.  After
one text delta (block 0 opened) an error chunk arrives: block 0 has one
`content_block_start` but zero `content_block_stop`, so the stream is not
grammatical. -/
theorem c1_counterexample :
    countStarts (convertStream [chunkHi, chunkErr] "req" "mod") 0 = 1 ∧
    countStops (convertStream [chunkHi, chunkErr] "req" "mod") 0 = 0 ∧
    eventsWellFormed (convertStream [chunkHi, chunkErr] "req" "mod") = false := by
  decide

/-- Claim C1 (amended): for every stream with no API-error chunk in which
exactly one chunk carries a truthy `finish_reason` and it is the final
chunk, the emitted event sequence is grammatical: it starts with
`message_start`, block indices are opened in order `0, 1, 2, ...`, each
opened block gets exactly one `content_block_start` and exactly one
`content_block_stop` with its `content_block_delta`s strictly between
them, at most one `message_delta` follows (after all blocks are closed)
and a single terminal `message_stop` ends the stream.  (On the
mid-stream-error path this fails: blocks still open when the error arrives
receive no `content_block_stop` — only the freshly appended error block
gets its start/stop pair.) -/
theorem c1_amended (body : List Chunk) (lastc : Chunk) (rid mo : String)
    (hbody : ∀ c ∈ body, isApiError c = false ∧ hasFinish c = false)
    (h1 : isApiError lastc = false) (h2 : hasFinish lastc = true) :
    eventsWellFormed (convertStream (body ++ [lastc]) rid mo) = true := by
  obtain ⟨g1, hg, hfin⟩ :=
    runChunks_scan_main body lastc initState (Nat.le_refl 0) hbody h1 h2
  show (match scanG (gOf initState.content_blocks.length)
      (runChunks initState (body ++ [lastc])) with
    | some g => g.finished
    | none => false) = true
  rw [hg]
  exact hfin

/-- Witness for c1_amended: a text chunk followed by a finishing chunk
with usage yields a grammatical stream. -/
theorem c1_amended_witness :
    eventsWellFormed (convertStream [chunkHi, chunkFin] "req" "mod") = true :=
  c1_amended [chunkHi] chunkFin "req" "mod" (by decide) (by decide) (by decide)

/-! ## Claim C4: the mid-stream error path -/

/-- Claim C4: when the first API-shaped error chunk arrives after an
error-free prefix, the whole emitted stream is `message_start`, the events
of the prefix, then exactly `content_block_start` for a NEW text block
containing `"Error: " ++ message` at the next block index,
`content_block_stop` for it, `message_delta` with stop_reason `"error"`
and the current usage, and `message_stop` — nothing further regardless of
any later chunks.  A chunk whose `error` value is not an object with a
`message` or `type` key triggers none of this and is processed normally. -/
theorem c4_theorem (pre post : List Chunk) (errc : Chunk) (rid mo : String)
    (hpre : ∀ c ∈ pre, isApiError c = false) (herr : isApiError errc = true) :
    convertStream (pre ++ errc :: post) rid mo =
      AEvent.message_start rid mo ::
        ((procMany initState pre).2 ++
          [AEvent.block_start (procMany initState pre).1.content_blocks.length
            (CBlock.text ("Error: " ++ errMsgOf errc)),
           AEvent.block_stop (procMany initState pre).1.content_blocks.length,
           AEvent.message_delta "error" ((procMany initState pre).1.usage.getD ⟨0, 0⟩),
           AEvent.message_stop]) ∧
    (∀ (c : Chunk) (rest : List Chunk) (s : StreamState), isApiError c = false →
      runChunks s (c :: rest)
        = (processChunk s c).2 ++ runChunks (processChunk s c).1 rest) ∧
    (∀ (u : Option SUsage) (chs : List CChoice),
      isApiError ⟨some ErrField.scalar, u, chs⟩ = false) ∧
    (∀ (u : Option SUsage) (chs : List CChoice),
      isApiError ⟨some (ErrField.obj none none), u, chs⟩ = false) := by
  refine ⟨?_, fun c rest s h => runChunks_cons_noerr s c rest h,
    fun u chs => rfl, fun u chs => rfl⟩
  unfold convertStream
  rw [runChunks_append_noerr pre (errc :: post) initState hpre]
  have he : runChunks (procMany initState pre).1 (errc :: post)
      = apiErrorTail (procMany initState pre).1 errc := by
    simp [runChunks, herr]
  rw [he]
  rfl

/-- Witness for c4_theorem: one text chunk, then an error chunk, then a
junk chunk that is never processed. -/
theorem c4_witness :
    convertStream ([chunkHi] ++ chunkErr :: [chunkJunk]) "r" "m" =
      AEvent.message_start "r" "m" ::
        ((procMany initState [chunkHi]).2 ++
          [AEvent.block_start (procMany initState [chunkHi]).1.content_blocks.length
            (CBlock.text ("Error: " ++ errMsgOf chunkErr)),
           AEvent.block_stop (procMany initState [chunkHi]).1.content_blocks.length,
           AEvent.message_delta "error"
             ((procMany initState [chunkHi]).1.usage.getD ⟨0, 0⟩),
           AEvent.message_stop]) :=
  (c4_theorem [chunkHi] [chunkJunk] chunkErr "r" "m" (by decide) (by decide)).1

/-! ## Claim C5: model resolution -/

/-- Claim C5 counterexample: the requested name `"claude-opus-4-1"` contains
the substring `"opus"` but is not one of the ten mapped names, so resolution
passes it through unchanged instead of selecting the configured opus tier. -/
theorem c5_counterexample :
    resolveModel mcC5 "claude-opus-4-1" = "claude-opus-4-1" ∧
    strContains "claude-opus-4-1" "opus" = true ∧
    ¬ resolveModel mcC5 "claude-opus-4-1" = mcC5.opus := by decide

/-- Claim C5 (amended): model resolution is an exact-name lookup — each of
the ten fixed names selects its tier, and every other requested name
(whether or not it contains `opus`/`sonnet`/`haiku`) is passed through
unchanged. -/
theorem c5_amended (mc : ModelConfig) (name : String)
    (h : ¬ name ∈ modelMappingKeys) :
    resolveModel mc name = name ∧
    resolveModel mc "claude-opus-4-20250514" = mc.opus ∧
    resolveModel mc "claude-opus-4" = mc.opus ∧
    resolveModel mc "claude-3-5-sonnet-20241022" = mc.sonnet ∧
    resolveModel mc "claude-3-5-sonnet" = mc.sonnet ∧
    resolveModel mc "claude-sonnet-4-20250514" = mc.sonnet ∧
    resolveModel mc "claude-sonnet-4" = mc.sonnet ∧
    resolveModel mc "claude-3-5-haiku-20241022" = mc.haiku ∧
    resolveModel mc "claude-3-5-haiku" = mc.haiku ∧
    resolveModel mc "claude-haiku-4-20250514" = mc.haiku ∧
    resolveModel mc "claude-haiku-4" = mc.haiku := by
  simp only [modelMappingKeys, List.mem_cons, List.not_mem_nil, or_false, not_or] at h
  obtain ⟨h1, h2, h3, h4, h5, h6, h7, h8, h9, h10⟩ := h
  refine ⟨?_, rfl, rfl, rfl, rfl, rfl, rfl, rfl, rfl, rfl, rfl⟩
  simp [resolveModel, h1, h2, h3, h4, h5, h6, h7, h8, h9, h10]

/-- Witness for c5_amended at the concrete unmapped name `"gpt-4o"`. -/
theorem c5_amended_witness :
    resolveModel mcC5 "gpt-4o" = "gpt-4o" :=
  (c5_amended mcC5 "gpt-4o" (by decide)).1

/-! ## Claim C6: finish-reason mapping -/

/-- Claim C6 counterexample: the present value `""` maps to `null`
(falsy strings are treated like an absent finish_reason), not to
`end_turn` as the claim requires for every present non-listed value. -/
theorem c6_counterexample :
    mapFinishReasonResponse (some "") = none ∧
    ¬ mapFinishReasonResponse (some "") = some "end_turn" := by decide

/-- Claim C6 (amended): the two `_map_finish_reason` implementations are
extensionally equal; `stop → end_turn`, `length → max_tokens`,
`tool_calls → tool_use`, `content_filter → end_turn`, every other present
NONEMPTY value `→ end_turn`, and an absent or empty finish_reason `→ null`. -/
theorem c6_amended :
    (∀ fr, mapFinishReasonResponse fr = mapFinishReasonHandler fr) ∧
    mapFinishReasonResponse none = none ∧
    mapFinishReasonResponse (some "") = none ∧
    mapFinishReasonResponse (some "stop") = some "end_turn" ∧
    mapFinishReasonResponse (some "length") = some "max_tokens" ∧
    mapFinishReasonResponse (some "tool_calls") = some "tool_use" ∧
    mapFinishReasonResponse (some "content_filter") = some "end_turn" ∧
    (∀ s : String, ¬ s = "" → ¬ s = "stop" → ¬ s = "length" →
      ¬ s = "tool_calls" → ¬ s = "content_filter" →
      mapFinishReasonResponse (some s) = some "end_turn") := by
  refine ⟨fun fr => rfl, rfl, rfl, rfl, rfl, rfl, rfl, ?_⟩
  intro s h0 h1 h2 h3 h4
  simp [mapFinishReasonResponse, h0, h1, h2, h3, h4]

/-- Witness for c6_amended at the concrete unlisted value `"weird"`. -/
theorem c6_amended_witness :
    mapFinishReasonResponse (some "weird") = some "end_turn" :=
  c6_amended.2.2.2.2.2.2.2 "weird" (by decide) (by decide) (by decide)
    (by decide) (by decide)

/-! ## Claim C7: the max_tokens floor -/

/-- Claim C7: for every validated request (`max_tokens ≥ 1`), a request
`max_tokens` of 1 is rewritten to 32 in the emitted request, and the
emitted `max_tokens` is never 1 (the preset caps are 7372 and 117964, so
the cap can never reintroduce 1). -/
theorem c7_theorem (req : ARequest) (target : String) (fmt : ToolFormat)
    (cfg : Option ProviderTag) (ui : Option UpdateInfo) (rng : Nat → Char)
    (h : 1 ≤ req.max_tokens) :
    (req.max_tokens = 1 → (convertRequest req target fmt cfg ui rng).max_tokens = 32) ∧
    ¬ (convertRequest req target fmt cfg ui rng).max_tokens = 1 := by
  have he : (convertRequest req target fmt cfg ui rng).max_tokens
      = effectiveMaxTokens cfg req.max_tokens := rfl
  constructor
  · intro h1
    rw [he, h1]
    rcases cfg with _ | p
    · rfl
    · cases p <;> rfl
  · rw [he]
    have e1 : (8192 : Nat) * 9 / 10 = 7372 := by norm_num
    have e2 : (131072 : Nat) * 9 / 10 = 117964 := by norm_num
    rcases cfg with _ | p
    · simp only [effectiveMaxTokens]
      split_ifs <;> omega
    · cases p <;> simp only [effectiveMaxTokens, presetWindow, e1, e2] <;>
        split_ifs <;> omega

/-- Witness for c7_theorem: a request with `max_tokens = 1` under the
ollama preset yields 32. -/
theorem c7_witness :
    (convertRequest reqC7 "t" ToolFormat.native (some ProviderTag.ollama) none rngX).max_tokens
      = 32 :=
  (c7_theorem reqC7 "t" ToolFormat.native (some ProviderTag.ollama) none rngX
    (by decide)).1 rfl

/-! ## Claim C8: joining of text blocks -/

/-- Claim C8 counterexample: assistant text blocks `"hello"`, `"world"`
are concatenated with NO separator (content `"helloworld"`, not
`"hello\nworld"`), and a user message with two text blocks is emitted as a
list of two separate text parts, not as one newline-joined string. -/
theorem c8_counterexample :
    (convertMessage ⟨ARole.assistant,
        AContent.blocks [ABlock.text "hello", ABlock.text "world"]⟩
        emptyCtx ToolFormat.native rngX 0).1
      = [OMessage.assistant (some "helloworld") []] ∧
    ¬ ("helloworld" : String) = "hello" ++ "\n" ++ "world" ∧
    (convertMessage ⟨ARole.user,
        AContent.blocks [ABlock.text "hello", ABlock.text "world"]⟩
        emptyCtx ToolFormat.native rngX 0).1
      = [OMessage.user (OUserContent.parts ["hello", "world"])] ∧
    ¬ OUserContent.parts ["hello", "world"] = OUserContent.str "hello\nworld" := by
  decide

/-- Claim C8 (amended): for block-sequence content consisting of text
blocks, the assistant translation concatenates the texts directly with no
separator, and the user translation keeps them as separate content parts
in order (collapsed to a plain string only when there is exactly one). -/
theorem c8_amended (ts : List String) (ctx : DedupCtx) (rng : Nat → Char) (pos : Nat) :
    (processAssistantBlocks (ts.map ABlock.text) ctx rng pos).1
      = ts.foldr (fun a b => a ++ b) "" ∧
    (processUserBlocks (ts.map ABlock.text) ctx).1 = ts := by
  induction ts with
  | nil => exact ⟨rfl, rfl⟩
  | cons t ts ih =>
    refine ⟨?_, ?_⟩
    · simp [processAssistantBlocks, ih.1]
    · simp [processUserBlocks, ih.2]

/-! ## Claim C9: empty assistant block message -/

/-- Claim C9 counterexample: an assistant message whose block content
yields no tool calls and no text is NOT omitted — the translation emits an
assistant message with null content and no tool calls. -/
theorem c9_counterexample :
    (convertMessage ⟨ARole.assistant, AContent.blocks []⟩
        emptyCtx ToolFormat.native rngX 0).1 = [OMessage.assistant none []] ∧
    ¬ (convertMessage ⟨ARole.assistant, AContent.blocks []⟩
        emptyCtx ToolFormat.native rngX 0).1 = ([] : List OMessage) := by decide

/-- Claim C9 (amended): an assistant block-sequence message yielding no
tool calls and no text produces exactly one upstream assistant message —
with null content and no tool calls in native mode, and with empty string
content in XML mode; it is not omitted (only nonempty prefill-shaped text
without tool calls is omitted). -/
theorem c9_amended (bs : List ABlock) (ctx : DedupCtx) (rng : Nat → Char) (pos : Nat)
    (ctx2 : DedupCtx) (pos2 : Nat)
    (hP : processAssistantBlocks bs ctx rng pos = ("", [], ctx2, pos2)) :
    (convertMessage ⟨ARole.assistant, AContent.blocks bs⟩ ctx ToolFormat.native rng pos).1
      = [OMessage.assistant none []] ∧
    (convertMessage ⟨ARole.assistant, AContent.blocks bs⟩ ctx ToolFormat.xml rng pos).1
      = [OMessage.assistant (some "") []] := by
  constructor <;> simp [convertMessage, hP]

/-- Witness for c9_amended at the empty block list. -/
theorem c9_amended_witness :
    (convertMessage ⟨ARole.assistant, AContent.blocks []⟩
        emptyCtx ToolFormat.xml rngX 0).1 = [OMessage.assistant (some "") []] :=
  (c9_amended [] emptyCtx rngX 0 emptyCtx 0 rfl).2

/-! ## Claim C10: the is_error prefix -/

/-- Claim C10: the content of the tool message produced for a
`ToolResultBlock` is `"Error: "` followed by the extracted content exactly
when `is_error` is true, and the extracted content unchanged when
`is_error` is absent or false (the dedup context affects only the
`tool_call_id`, never the content). -/
theorem c10_theorem (tid : String) (c : TRContent) (ie : Option Bool) (ctx : DedupCtx) :
    ((processUserBlocks [ABlock.tool_result tid c ie] ctx).2.1).map Prod.snd =
      [if ie = some true then "Error: " ++ extractTRContent c
       else extractTRContent c] := by
  simp [processUserBlocks]

/-! ## Claim C2: context-window fitting -/

set_option maxRecDepth 4000 in
/-- Claim C2 counterexample: under the ollama preset (window 8192) a
request with `max_tokens = 8000` and a 1000-character prompt (100 text
parts) is emitted with `max_tokens = 7372 = int(8192 * 0.9)`; the claimed
budget `estimated_prompt_tokens + max_tokens ≤ W − 256` is violated
(600 + 7372 > 7936), and the emitted value differs from the claimed cap
`min(8000, max(256, W − 256)) = 7936`.  No message is dropped. -/
theorem c2_counterexample :
    outC2.max_tokens = 7372 ∧
    ¬ (specEstimatePrompt outC2.messages + outC2.max_tokens ≤ 8192 - 256) ∧
    ¬ outC2.max_tokens = min 8000 (max 256 (8192 - 256)) ∧
    outC2.messages =
      [OMessage.user (OUserContent.parts (List.replicate 100 "0123456789"))] := by
  decide

/-- Claim C2 (amended): with a configured provider, the emitted
`max_tokens` is `min(m, int(W * 0.9))` where `m` is the request
`max_tokens` after the `1 → 32` rewrite and `W` is the `max_context_window` of the provider PRESET (no cap when the preset declares none); the emitted
message list is identical to the one produced with no configuration — no
prompt-token estimation and no message dropping is performed. -/
theorem c2_amended (req : ARequest) (target : String) (fmt : ToolFormat)
    (p : ProviderTag) (ui : Option UpdateInfo) (rng : Nat → Char) :
    (convertRequest req target fmt (some p) ui rng).max_tokens =
      (match presetWindow p with
       | some w => min (if req.max_tokens = 1 then 32 else req.max_tokens) (w * 9 / 10)
       | none => (if req.max_tokens = 1 then 32 else req.max_tokens)) ∧
    (convertRequest req target fmt (some p) ui rng).messages =
      (convertRequest req target fmt none ui rng).messages := by
  refine ⟨?_, rfl⟩
  have he : (convertRequest req target fmt (some p) ui rng).max_tokens
      = effectiveMaxTokens (some p) req.max_tokens := rfl
  rw [he]
  have h1 : (8192 : Nat) * 9 / 10 = 7372 := by norm_num
  have h2 : (131072 : Nat) * 9 / 10 = 117964 := by norm_num
  cases p <;> simp only [effectiveMaxTokens, presetWindow, min_def, h1, h2] <;>
    split_ifs <;> omega

/-! ## Claim C3: duplicate tool-id round trip -/

/-- Claim C3 counterexample: in the S4 scenario (supply producing `z`),
the two emitted tool messages carry, in order, the generated id `"zzz"`
first and `"dup"` second — the opposite of the claimed order (the
assistant tool_calls do keep `"dup"` first and the generated id second). -/
theorem c3_counterexample :
    toolIds (outC3 rngZ).messages = ["zzz", "dup"] ∧
    asToolCallIds (outC3 rngZ).messages = ["dup", "zzz"] ∧
    ¬ ("zzz" : String) = "dup" := by decide

/-- Claim C3 (amended): translation keeps `"dup"` on the first tool_call
and assigns a freshly generated id of the same length to the second; the
two tool result messages consume the replacement mappings in order, so
their `tool_call_id`s are, in order, the GENERATED id first and `"dup"`
second (the original id is used once the mappings are exhausted). -/
theorem c3_amended (rng : Nat → Char) :
    (outC3 rng).messages =
      [OMessage.assistant none
        [⟨"dup", "f", "a1"⟩, ⟨genChars rng 0 3, "g", "a2"⟩],
       OMessage.tool (genChars rng 0 3) "r1",
       OMessage.tool "dup" "r2"] ∧
    (genChars rng 0 3).length = "dup".length := ⟨rfl, rfl⟩

end ClaudeAdapter
